import Mathlib

/-!
Verification of the orchestration logic in `readthedocs/oauth/tasks.py`.

The file shallowly embeds the four task bodies of that module:

* `sync_remote_repositories(user_id)` — per-user sync with failure
  aggregation over all registered provider services;
* `sync_remote_repositories_organizations(organization_slugs)` — the resync
  distributor that staggers one queued job per organization member;
* `sync_active_users_remote_repositories()` — the daily batch that selects
  active users by last-login weekday and syncs them in process;
* `attach_webhook(project_pk, user_pk, integration)` — the webhook
  attachment engine with its fallback over a user's accounts and its
  three notification outcomes.

External collaborators (the Django ORM, the provider API clients, the task
queue) are modelled by their observable behaviour at the call sites that
appear in the module: an account's `sync()` either succeeds or raises
`SyncServiceError`; `setup_webhook` returns a success flag; querysets are
lists of rows, including the row multiplicity a SQL join produces.
-/

/-! ## Account sync engine: `sync_remote_repositories`

A provider service instance, one element of `service_cls.for_user(user)`:
the code reads `service.provider_name` and calls `service.sync()`, which
either succeeds or raises `SyncServiceError` (`syncOk = false`).  Other
exception kinds are not caught by the code and are outside the claims. -/
structure SyncService where
  provider_name : String
  syncOk : Bool
deriving DecidableEq

/-- One registered service class of `registry`; `for_user` is the list of
service instances `service_cls.for_user(user)` yields for the target user,
in enumeration order. -/
structure ServiceCls where
  for_user : List SyncService
deriving DecidableEq

/-- Python `failed_services.add(name)`: the set's mathematical contents
grow by `name` if absent.  We keep the contents as a duplicate-free list;
the list order is first-insertion order, but no theorem below relies on
that order, because CPython gives no iteration-order guarantee for a `set`
of strings (string hashing is randomized per process). -/
def setAdd (s : List String) (x : String) : List String :=
  if x ∈ s then s else s ++ [x]

/-- The nested loop `for service_cls in registry: for service in
service_cls.for_user(user): try: service.sync() except SyncServiceError:
failed_services.add(service.provider_name)`, flattened over the list of
service instances.  Returns the trace of `sync()` calls made (in order)
and the final contents of `failed_services`. -/
def syncLoop (acc : List String) : List SyncService → List SyncService × List String
  | [] => ([], acc)
  | s :: rest =>
    (s :: (syncLoop (if s.syncOk then acc else setAdd acc s.provider_name) rest).1,
      (syncLoop (if s.syncOk then acc else setAdd acc s.provider_name) rest).2)

/-- Model of `sync_remote_repositories(user_id)`.

`userExists` models `User.objects.filter(pk=user_id).first() is not None`;
when false the task returns silently having attempted nothing.  Otherwise
all accounts are synced and, if `failed_services` is non-empty, the task
raises `SyncServiceError` whose message is formatted from
`", ".join(failed_services)`.  Because Python fixes no iteration order on
a `set` of strings, the model takes the enumeration order the join sees as
the parameter `enumOrder`; theorems constrain it to be a permutation of
the set's contents.  The result is the trace of attempted service
instances paired with `none` (silent return) or `some names` (the raised
error, `names` being the provider names in message order). -/
def sync_remote_repositories (userExists : Bool) (registry : List ServiceCls)
    (enumOrder : List String) : List SyncService × Option (List String) :=
  if userExists then
    ((syncLoop [] (registry.flatMap ServiceCls.for_user)).1,
      if (syncLoop [] (registry.flatMap ServiceCls.for_user)).2.isEmpty then none
      else some enumOrder)
  else ([], none)

/-- The raised message body: `", ".join(failed_services)` (the surrounding
`INVALID_OR_REVOKED_ACCESS_TOKEN` template only wraps this). -/
def aggregateMessage (names : List String) : String :=
  String.intercalate ", " names

theorem mem_setAdd {s : List String} {y x : String} :
    x ∈ setAdd s y ↔ x ∈ s ∨ x = y := by
  unfold setAdd
  split
  · constructor
    · exact Or.inl
    · rintro (h | rfl)
      · exact h
      · assumption
  · simp

theorem setAdd_nodup {s : List String} {y : String} (h : s.Nodup) :
    (setAdd s y).Nodup := by
  unfold setAdd
  split
  · exact h
  · simp [List.nodup_append, h]
    assumption

theorem syncLoop_trace (l : List SyncService) : ∀ acc, (syncLoop acc l).1 = l := by
  induction l with
  | nil => intro acc; rfl
  | cons s rest ih => intro acc; simp [syncLoop, ih]

theorem syncLoop_mem (l : List SyncService) :
    ∀ (acc : List String) (x : String),
      x ∈ (syncLoop acc l).2 ↔
        x ∈ acc ∨ ∃ s ∈ l, s.syncOk = false ∧ s.provider_name = x := by
  induction l with
  | nil => simp [syncLoop]
  | cons s rest ih =>
    intro acc x
    by_cases hs : s.syncOk
    · simp only [syncLoop, hs, if_pos, List.mem_cons]
      rw [ih]
      constructor
      · rintro (h | h)
        · exact Or.inl h
        · exact Or.inr ⟨h.choose, ⟨Or.inr h.choose_spec.1, h.choose_spec.2⟩⟩
      · rintro (h | ⟨t, ht, hfail, hname⟩)
        · exact Or.inl h
        · rcases ht with rfl | ht
          · rw [hfail] at hs; exact absurd hs (by simp)
          · exact Or.inr ⟨t, ht, hfail, hname⟩
    · simp only [syncLoop, hs, if_neg, Bool.false_eq_true, not_false_iff, List.mem_cons]
      rw [ih, mem_setAdd]
      constructor
      · rintro ((h | rfl) | ⟨t, ht, hfail, hname⟩)
        · exact Or.inl h
        · exact Or.inr ⟨s, Or.inl rfl, by simpa using hs, rfl⟩
        · exact Or.inr ⟨t, Or.inr ht, hfail, hname⟩
      · rintro (h | ⟨t, rfl | ht, hfail, hname⟩)
        · exact Or.inl (Or.inl h)
        · exact Or.inl (Or.inr hname.symm)
        · exact Or.inr ⟨t, ht, hfail, hname⟩

theorem syncLoop_nodup (l : List SyncService) :
    ∀ acc : List String, acc.Nodup → ((syncLoop acc l).2).Nodup := by
  induction l with
  | nil => intro acc h; exact h
  | cons s rest ih =>
    intro acc h
    by_cases hs : s.syncOk
    · simpa [syncLoop, hs] using ih acc h
    · simpa [syncLoop, hs] using ih _ (setAdd_nodup h)

/-- C1: for an existing user, `sync_remote_repositories` attempts every
account of every registered provider (no early exit on failure), then
raises the aggregate `SyncServiceError` iff at least one account's
`sync()` raised the provider-sync error; the names in the raised message
are exactly the providers with at least one failing account, each named
once; a nonexistent user returns silently with nothing attempted. -/
theorem C1_sync_remote_repositories_aggregate
    (registry : List ServiceCls) (enumOrder : List String)
    (h : enumOrder.Perm ((syncLoop [] (registry.flatMap ServiceCls.for_user)).2)) :
    ((sync_remote_repositories true registry enumOrder).1 =
        registry.flatMap ServiceCls.for_user) ∧
    (((sync_remote_repositories true registry enumOrder).2).isSome ↔
        ∃ s ∈ registry.flatMap ServiceCls.for_user, s.syncOk = false) ∧
    (∀ names, (sync_remote_repositories true registry enumOrder).2 = some names →
        names.Nodup ∧
          ∀ p, p ∈ names ↔
            ∃ s ∈ registry.flatMap ServiceCls.for_user,
              s.syncOk = false ∧ s.provider_name = p) ∧
    (∀ (r : List ServiceCls) (e : List String),
        sync_remote_repositories false r e = ([], none)) := by
  have hloop := syncLoop_mem (registry.flatMap ServiceCls.for_user) []
  refine ⟨?_, ?_, ?_, fun r e => rfl⟩
  · exact syncLoop_trace _ []
  · show (if (syncLoop [] (registry.flatMap ServiceCls.for_user)).2.isEmpty then none
        else some enumOrder).isSome = true ↔ _
    by_cases he : ((syncLoop [] (registry.flatMap ServiceCls.for_user)).2).isEmpty
    · rw [if_pos he]
      simp only [Option.isSome_none, Bool.false_eq_true, false_iff]
      rintro ⟨s, hmem, hfail⟩
      rw [List.isEmpty_iff] at he
      have : s.provider_name ∈ (syncLoop [] (registry.flatMap ServiceCls.for_user)).2 :=
        (hloop s.provider_name).mpr (Or.inr ⟨s, hmem, hfail, rfl⟩)
      simp [he] at this
    · rw [if_neg he]
      simp only [Option.isSome_some, true_iff]
      rw [List.isEmpty_iff, ← ne_eq] at he
      rcases List.exists_mem_of_ne_nil _ he with ⟨x, hx⟩
      rcases (hloop x).mp hx with h0 | ⟨s, hmem, hfail, _⟩
      · simp at h0
      · exact ⟨s, hmem, hfail⟩
  · intro names hnames
    have hnames' : (if (syncLoop [] (registry.flatMap ServiceCls.for_user)).2.isEmpty
        then none else some enumOrder) = some names := hnames
    by_cases he : ((syncLoop [] (registry.flatMap ServiceCls.for_user)).2).isEmpty
    · rw [if_pos he] at hnames'
      exact absurd hnames' (by simp)
    · rw [if_neg he] at hnames'
      rw [Option.some_inj] at hnames'
      subst hnames'
      refine ⟨h.nodup_iff.mpr (syncLoop_nodup _ [] List.nodup_nil), fun p => ?_⟩
      rw [h.mem_iff, hloop p]
      simp

/-- Concrete registry for the C1 witness: one provider with a succeeding
and a failing account, one provider whose only account succeeds. -/
def C1registry : List ServiceCls :=
  [⟨[⟨"gitlab", true⟩, ⟨"gitlab", false⟩]⟩, ⟨[⟨"bitbucket", true⟩]⟩]

theorem C1_sync_remote_repositories_aggregate_witness :
    ((sync_remote_repositories true C1registry ["gitlab"]).2).isSome :=
  (C1_sync_remote_repositories_aggregate C1registry ["gitlab"] (by decide)).2.1.mpr
    ⟨⟨"gitlab", false⟩, by decide, rfl⟩

/-! ## C9: enumeration order of the aggregate message -/

/-- Registry for the C9 counterexample: two providers, each with one
failing account, so `failed_services` holds two strings. -/
def C9registry : List ServiceCls :=
  [⟨[⟨"alpha", false⟩]⟩, ⟨[⟨"beta", false⟩]⟩]

/-- C9 counterexample: the claim says the comma-joined list of failed
provider names is identical across any two runs with the same per-account
outcomes.  The code joins a Python `set` of strings, whose iteration
order is unspecified and varies with the per-process hash seed; both
enumeration orders below are legitimate enumerations of the same
`failed_services` set (each is a permutation of its contents), yet they
produce different messages. -/
theorem C9_set_order_counterexample :
    (["alpha", "beta"]).Perm ((syncLoop [] (C9registry.flatMap ServiceCls.for_user)).2) ∧
    (["beta", "alpha"]).Perm ((syncLoop [] (C9registry.flatMap ServiceCls.for_user)).2) ∧
    sync_remote_repositories true C9registry ["alpha", "beta"] ≠
      sync_remote_repositories true C9registry ["beta", "alpha"] ∧
    aggregateMessage ["alpha", "beta"] ≠ aggregateMessage ["beta", "alpha"] := by
  refine ⟨by decide, by decide, by decide, by decide⟩

/-- C9 amended: across any two runs over the same providers and accounts
with the same per-account outcomes, the error is raised in one run iff in
the other, and the two messages name the same set of failed providers,
each exactly once — but the enumeration order (hence the joined string)
may differ between runs. -/
theorem C9_sync_remote_repositories_deterministic_set
    (registry : List ServiceCls) (e1 e2 : List String)
    (h1 : e1.Perm ((syncLoop [] (registry.flatMap ServiceCls.for_user)).2))
    (h2 : e2.Perm ((syncLoop [] (registry.flatMap ServiceCls.for_user)).2)) :
    (((sync_remote_repositories true registry e1).2).isSome ↔
        ((sync_remote_repositories true registry e2).2).isSome) ∧
    (∀ n1 n2, (sync_remote_repositories true registry e1).2 = some n1 →
        (sync_remote_repositories true registry e2).2 = some n2 →
        n1.Perm n2 ∧ n1.Nodup ∧ n2.Nodup) := by
  constructor
  · show (if (syncLoop [] (registry.flatMap ServiceCls.for_user)).2.isEmpty then none
        else some e1).isSome = true ↔
      (if (syncLoop [] (registry.flatMap ServiceCls.for_user)).2.isEmpty then none
        else some e2).isSome = true
    by_cases he : ((syncLoop [] (registry.flatMap ServiceCls.for_user)).2).isEmpty
    · rw [if_pos he, if_pos he]
    · rw [if_neg he, if_neg he]
      simp
  · intro n1 n2 hn1 hn2
    have hn1' : (if (syncLoop [] (registry.flatMap ServiceCls.for_user)).2.isEmpty
        then none else some e1) = some n1 := hn1
    have hn2' : (if (syncLoop [] (registry.flatMap ServiceCls.for_user)).2.isEmpty
        then none else some e2) = some n2 := hn2
    by_cases he : ((syncLoop [] (registry.flatMap ServiceCls.for_user)).2).isEmpty
    · rw [if_pos he] at hn1'
      exact absurd hn1' (by simp)
    · rw [if_neg he, Option.some_inj] at hn1'
      rw [if_neg he, Option.some_inj] at hn2'
      subst hn1'
      subst hn2'
      have hnd := syncLoop_nodup (registry.flatMap ServiceCls.for_user) [] List.nodup_nil
      exact ⟨h1.trans h2.symm, h1.nodup_iff.mpr hnd, h2.nodup_iff.mpr hnd⟩

theorem C9_sync_remote_repositories_deterministic_set_witness :
    ∃ n1 n2, (sync_remote_repositories true C9registry ["alpha", "beta"]).2 = some n1 ∧
      (sync_remote_repositories true C9registry ["beta", "alpha"]).2 = some n2 ∧
      n1.Perm n2 :=
  ⟨["alpha", "beta"], ["beta", "alpha"], rfl, rfl,
    ((C9_sync_remote_repositories_deterministic_set C9registry
        ["alpha", "beta"] ["beta", "alpha"] (by decide) (by decide)).2
      ["alpha", "beta"] ["beta", "alpha"] rfl rfl).1⟩

/-! ## Webhook attachment engine: `attach_webhook` -/

/-- A project row; `attach_webhook` reads `slug` (for notification links)
and may set `has_valid_webhook`. -/
structure Project where
  slug : String
  has_valid_webhook : Bool
deriving DecidableEq

/-- One of the user's accounts for the resolved service (an element of
`service.for_user(user)`); `setup_ok` is the `success` component of
`account.setup_webhook(project, integration=integration)`. -/
structure WebhookAccount where
  setup_ok : Bool
deriving DecidableEq

/-- A provider service as `attach_webhook` consumes it: `provider_name`
models `allauth_registry.by_id(service.adapter.provider_id).name`,
`for_user` the user's accounts for this service, and
`is_project_service` the value of `service_cls.is_project_service(project)`
for the call's project. -/
structure WebhookService where
  provider_name : String
  for_user : List WebhookAccount
  is_project_service : Bool
deriving DecidableEq

/-- Message identifiers imported from `readthedocs.oauth.notifications`. -/
inductive MessageId
  | oauth_webhook_invalid
  | oauth_webhook_no_permissions
  | oauth_webhook_no_account
deriving DecidableEq

/-- A record created through `Notification.objects.add(...)`: the message
id, the project the notification is attached to, and the provider display
name when the message's format values carry one (the invalid-config
message instead carries only the project integrations URL). -/
structure WNotification where
  message_id : MessageId
  attached_slug : String
  provider_name : Option String
deriving DecidableEq

/-- Service resolution in `attach_webhook`: with an explicit integration,
`SERVICE_MAP.get(integration.integration_type)`; otherwise the
`for ... else` scan of `registry` returning the first service class whose
`is_project_service(project)` holds. -/
def resolveService (integration : Option String)
    (serviceMap : List (String × WebhookService))
    (registry : List WebhookService) : Option WebhookService :=
  match integration with
  | some itype => List.lookup itype serviceMap
  | none => registry.find? (fun svc => svc.is_project_service)

/-- The `for account in user_accounts` loop: each account's
`setup_webhook` is called in order until the first success, which ends
the loop.  Returns the list of accounts actually attempted (in order)
and whether some attempt succeeded. -/
def tryAccounts : List WebhookAccount → List WebhookAccount × Bool
  | [] => ([], false)
  | a :: rest =>
    if a.setup_ok then ([a], true)
    else ((a :: (tryAccounts rest).1), (tryAccounts rest).2)

/-- Observable outcome of one `attach_webhook` call: the Python return
value (`some true` = `True`, `some false` = `False`, `none` = `None`),
the project row after the call, the notifications created, and the trace
of `setup_webhook` attempts. -/
structure AttachResult where
  result : Option Bool
  project : Option Project
  notifications : List WNotification
  attempted : List WebhookAccount
deriving DecidableEq

/-- Model of `attach_webhook(project_pk, user_pk, integration=None)`.

`project?` is `Project.objects.filter(pk=project_pk).first()`,
`userExists` whether `User.objects.filter(pk=user_pk).first()` found a
row, `integration` the optional integration's `integration_type`.  When
either entity is missing the task returns `False` untouched.  When no
service resolves, it creates the `MESSAGE_OAUTH_WEBHOOK_INVALID`
notification on the project and returns `None`.  Otherwise it walks the
user's accounts: on the first `setup_webhook` success it sets
`project.has_valid_webhook = True`, saves, and returns `True`; if none
succeeds it creates `MESSAGE_OAUTH_WEBHOOK_NO_PERMISSIONS` (the user had
accounts) or `MESSAGE_OAUTH_WEBHOOK_NO_ACCOUNT` (no accounts) with the
provider display name and returns `False`. -/
def attach_webhook (project? : Option Project) (userExists : Bool)
    (integration : Option String) (serviceMap : List (String × WebhookService))
    (registry : List WebhookService) : AttachResult :=
  match project?, userExists with
  | some project, true =>
    match resolveService integration serviceMap registry with
    | none =>
      ⟨none, some project,
        [⟨MessageId.oauth_webhook_invalid, project.slug, none⟩], []⟩
    | some service =>
      if (tryAccounts service.for_user).2 then
        ⟨some true, some { project with has_valid_webhook := true }, [],
          (tryAccounts service.for_user).1⟩
      else if service.for_user.isEmpty then
        ⟨some false, some project,
          [⟨MessageId.oauth_webhook_no_account, project.slug,
            some service.provider_name⟩],
          (tryAccounts service.for_user).1⟩
      else
        ⟨some false, some project,
          [⟨MessageId.oauth_webhook_no_permissions, project.slug,
            some service.provider_name⟩],
          (tryAccounts service.for_user).1⟩
  | _, _ => ⟨some false, project?, [], []⟩

theorem tryAccounts_eq_any (l : List WebhookAccount) :
    (tryAccounts l).2 = l.any (fun a => a.setup_ok) := by
  induction l with
  | nil => rfl
  | cons a rest ih =>
    by_cases ha : a.setup_ok <;> simp [tryAccounts, ha, ih]

theorem tryAccounts_trace_success (l : List WebhookAccount)
    (h : l.any (fun a => a.setup_ok) = true) :
    (tryAccounts l).1 = l.take (l.findIdx (fun a => a.setup_ok) + 1) := by
  induction l with
  | nil => simp at h
  | cons a rest ih =>
    by_cases ha : a.setup_ok
    · simp [tryAccounts, ha, List.findIdx_cons]
    · have h' : rest.any (fun a => a.setup_ok) = true := by
        simpa [ha] using h
      simp [tryAccounts, ha, List.findIdx_cons, ih h']

theorem tryAccounts_trace_failure (l : List WebhookAccount)
    (h : l.any (fun a => a.setup_ok) = false) :
    (tryAccounts l).1 = l := by
  induction l with
  | nil => rfl
  | cons a rest ih =>
    simp only [List.any_cons, Bool.or_eq_false_iff] at h
    simp [tryAccounts, h.1, ih h.2]

/-- C2: when a service resolves and some account's `setup_webhook`
succeeds, the accounts are tried in enumeration order up to and including
the first success, the call returns `True`, sets and persists
`has_valid_webhook = true`, and creates no notification; moreover on any
call whatsoever, either the project row is left unchanged and the result
is not `True`, or some attempted `setup_webhook` succeeded and the only
mutation is `has_valid_webhook := true` — so the flag is never reset to
false and is set only by a confirmed success. -/
theorem C2_attach_webhook_first_success :
    (∀ (project : Project) (integration : Option String)
        (serviceMap : List (String × WebhookService)) (registry : List WebhookService)
        (service : WebhookService),
      resolveService integration serviceMap registry = some service →
      service.for_user.any (fun a => a.setup_ok) = true →
      attach_webhook (some project) true integration serviceMap registry =
        ⟨some true, some { project with has_valid_webhook := true }, [],
          service.for_user.take (service.for_user.findIdx (fun a => a.setup_ok) + 1)⟩) ∧
    (∀ (project? : Option Project) (userExists : Bool) (integration : Option String)
        (serviceMap : List (String × WebhookService)) (registry : List WebhookService),
      ((attach_webhook project? userExists integration serviceMap registry).project =
          project? ∧
        (attach_webhook project? userExists integration serviceMap registry).result ≠
          some true) ∨
      (∃ project service, project? = some project ∧ userExists = true ∧
        resolveService integration serviceMap registry = some service ∧
        service.for_user.any (fun a => a.setup_ok) = true ∧
        attach_webhook project? userExists integration serviceMap registry =
          ⟨some true, some { project with has_valid_webhook := true }, [],
            (tryAccounts service.for_user).1⟩)) := by
  constructor
  · intro project integration serviceMap registry service hres hany
    have h2 : (tryAccounts service.for_user).2 = true := by
      rw [tryAccounts_eq_any]; exact hany
    simp [attach_webhook, hres, h2, tryAccounts_trace_success _ hany]
  · intro project? userExists integration serviceMap registry
    match project?, userExists with
    | none, ue => exact Or.inl (by constructor <;> simp [attach_webhook])
    | some project, false => exact Or.inl (by constructor <;> simp [attach_webhook])
    | some project, true =>
      cases hres : resolveService integration serviceMap registry with
      | none => exact Or.inl (by constructor <;> simp [attach_webhook, hres])
      | some service =>
        by_cases hok : (tryAccounts service.for_user).2
        · exact Or.inr ⟨project, service, rfl, rfl, rfl,
            by rw [← tryAccounts_eq_any]; exact hok,
            by simp [attach_webhook, hres, hok]⟩
        · refine Or.inl ?_
          by_cases hempty : service.for_user.isEmpty <;>
            exact ⟨by simp [attach_webhook, hres, hok, hempty],
              by simp [attach_webhook, hres, hok, hempty]⟩

/-- Service for the C2 witness: the spec's test scenario — two accounts,
the first fails and the second succeeds. -/
def C2service : WebhookService := ⟨"github", [⟨false⟩, ⟨true⟩], true⟩

theorem C2_attach_webhook_first_success_witness :
    attach_webhook (some ⟨"proj", false⟩) true none [] [C2service] =
      ⟨some true, some ⟨"proj", true⟩, [], [⟨false⟩, ⟨true⟩]⟩ :=
  C2_attach_webhook_first_success.1 ⟨"proj", false⟩ none [] [C2service] C2service
    (by decide) (by decide)

/-- C3: when a service resolves but no account's `setup_webhook`
succeeds, the call returns `False`, leaves the project row (and so
`has_valid_webhook`) unchanged, attempts every account, and creates
exactly one notification carrying the provider display name:
`MESSAGE_OAUTH_WEBHOOK_NO_PERMISSIONS` if the user had at least one
account for the service, `MESSAGE_OAUTH_WEBHOOK_NO_ACCOUNT` if zero. -/
theorem C3_attach_webhook_failure_notification
    (project : Project) (integration : Option String)
    (serviceMap : List (String × WebhookService)) (registry : List WebhookService)
    (service : WebhookService)
    (hres : resolveService integration serviceMap registry = some service)
    (hfail : service.for_user.any (fun a => a.setup_ok) = false) :
    attach_webhook (some project) true integration serviceMap registry =
      ⟨some false, some project,
        [⟨(if service.for_user.isEmpty then MessageId.oauth_webhook_no_account
            else MessageId.oauth_webhook_no_permissions), project.slug,
          some service.provider_name⟩],
        service.for_user⟩ ∧
    (attach_webhook (some project) true integration
        serviceMap registry).notifications.length = 1 := by
  have h2 : (tryAccounts service.for_user).2 = false := by
    rw [tryAccounts_eq_any]; exact hfail
  by_cases hempty : service.for_user.isEmpty <;>
    exact ⟨by simp [attach_webhook, hres, h2, hempty, tryAccounts_trace_failure _ hfail],
      by simp [attach_webhook, hres, h2, hempty]⟩

/-- Service for the C3 witness: one account whose setup fails. -/
def C3service : WebhookService := ⟨"github", [⟨false⟩], true⟩

theorem C3_attach_webhook_failure_notification_witness :
    attach_webhook (some ⟨"proj", false⟩) true none [] [C3service] =
      ⟨some false, some ⟨"proj", false⟩,
        [⟨MessageId.oauth_webhook_no_permissions, "proj", some "github"⟩],
        [⟨false⟩]⟩ :=
  (C3_attach_webhook_failure_notification ⟨"proj", false⟩ none [] [C3service] C3service
    (by decide) (by decide)).1

/-- C4: when the provider configuration is invalid — an explicit
integration whose type is not in the service map, or no integration and
no registered provider claiming the project — the call creates exactly
one `MESSAGE_OAUTH_WEBHOOK_INVALID` notification attached to the project
and returns the `None` sentinel (distinct from the plain `False`
failure), with no `setup_webhook` attempt and the project row (hence
`has_valid_webhook`) unchanged. -/
theorem C4_attach_webhook_invalid_config
    (project : Project) (integration : Option String)
    (serviceMap : List (String × WebhookService)) (registry : List WebhookService)
    (h : (∃ itype, integration = some itype ∧ List.lookup itype serviceMap = none) ∨
      (integration = none ∧
        registry.find? (fun svc => svc.is_project_service) = none)) :
    attach_webhook (some project) true integration serviceMap registry =
      ⟨none, some project,
        [⟨MessageId.oauth_webhook_invalid, project.slug, none⟩], []⟩ ∧
    (attach_webhook (some project) true integration serviceMap registry).result ≠
      some false ∧
    (attach_webhook (some project) true integration serviceMap registry).result ≠
      some true := by
  have hres : resolveService integration serviceMap registry = none := by
    rcases h with ⟨itype, rfl, hl⟩ | ⟨rfl, hf⟩
    · simpa [resolveService] using hl
    · simpa [resolveService] using hf
  refine ⟨by simp [attach_webhook, hres], ?_, ?_⟩ <;>
    simp [attach_webhook, hres]

theorem C4_attach_webhook_invalid_config_witness :
    attach_webhook (some ⟨"proj", false⟩) true none [] [⟨"github", [], false⟩] =
      ⟨none, some ⟨"proj", false⟩,
        [⟨MessageId.oauth_webhook_invalid, "proj", none⟩], []⟩ :=
  (C4_attach_webhook_invalid_config ⟨"proj", false⟩ none [] [⟨"github", [], false⟩]
    (Or.inr ⟨rfl, by decide⟩)).1

/-! ## Resync distributor: `sync_remote_repositories_organizations`

Members are user primary keys (`user.pk`); each resolved organization
contributes the list `AdminPermission.members(organization)` in queryset
order.  A submitted job is the pair `(user.pk, countdown)` passed to
`sync_remote_repositories.apply_async`. -/

/-- The inner `for user in members` loop: `n` is the value `n_task + 1`
would take before the next submission (the code initializes `n_task = -1`
and pre-increments, so the first submission uses index 0).  Returns the
submitted jobs and the counter after the loop. -/
def distributeMembers (n : Nat) : List Nat → List (Nat × Nat) × Nat
  | [] => ([], n)
  | u :: rest =>
    ((u, n * 5) :: (distributeMembers (n + 1) rest).1,
      (distributeMembers (n + 1) rest).2)

/-- The outer `for organization in query` loop, threading the global
`n_task` counter from one organization into the next. -/
def distributeOrgs (n : Nat) : List (List Nat) → List (Nat × Nat)
  | [] => []
  | members :: rest =>
    (distributeMembers n members).1 ++
      distributeOrgs ((distributeMembers n members).2) rest

/-- Model of `sync_remote_repositories_organizations`: given the member
lists of the resolved organizations (in query order), the list of jobs
submitted via `apply_async(args=[user.pk], countdown=n_task * 5)`, in
submission order. -/
def sync_remote_repositories_organizations (orgs : List (List Nat)) :
    List (Nat × Nat) :=
  distributeOrgs 0 orgs

theorem distributeMembers_length (l : List Nat) :
    ∀ n, ((distributeMembers n l).1).length = l.length := by
  induction l with
  | nil => intro n; rfl
  | cons u rest ih => intro n; simp [distributeMembers, ih]

theorem distributeMembers_snd (l : List Nat) :
    ∀ n, (distributeMembers n l).2 = n + l.length := by
  induction l with
  | nil => intro n; simp [distributeMembers]
  | cons u rest ih => intro n; simp [distributeMembers, ih]; omega

theorem distributeMembers_append (l1 : List Nat) :
    ∀ (l2 : List Nat) (n : Nat),
      (distributeMembers n (l1 ++ l2)).1 =
        (distributeMembers n l1).1 ++
          (distributeMembers (n + l1.length) l2).1 := by
  induction l1 with
  | nil => intro l2 n; simp [distributeMembers]
  | cons u rest ih =>
    intro l2 n
    show ((u, n * 5) :: (distributeMembers (n + 1) (rest ++ l2)).1) =
      ((u, n * 5) :: (distributeMembers (n + 1) rest).1) ++
        (distributeMembers (n + (u :: rest).length) l2).1
    rw [ih, List.cons_append]
    have harith : n + (u :: rest).length = n + 1 + rest.length := by
      simp [List.length_cons]
      omega
    rw [harith]

theorem distributeOrgs_eq (orgs : List (List Nat)) :
    ∀ n, distributeOrgs n orgs = (distributeMembers n orgs.flatten).1 := by
  induction orgs with
  | nil => intro n; rfl
  | cons members rest ih =>
    intro n
    simp only [distributeOrgs, ih, distributeMembers_snd, List.flatten_cons]
    rw [distributeMembers_append]

theorem distributeMembers_delay (l : List Nat) :
    ∀ n i, ((((distributeMembers n l).1)[i]?).map Prod.snd) =
      if i < l.length then some ((n + i) * 5) else none := by
  induction l with
  | nil => intro n i; simp [distributeMembers]
  | cons u rest ih =>
    intro n i
    match i with
    | 0 => simp [distributeMembers]
    | i + 1 =>
      simp only [distributeMembers, List.getElem?_cons_succ, ih (n + 1) i,
        List.length_cons]
      by_cases hlt : i < rest.length
      · rw [if_pos hlt, if_pos (by omega)]
        congr 1
        omega
      · rw [if_neg hlt, if_neg (by omega)]

/-- C5: across the whole call, one job is submitted per member row in
submission order, and the i-th submitted job (counting from 0 globally,
not per organization) carries a countdown of exactly `5 * i`. -/
theorem C5_distribute_resync_stagger (orgs : List (List Nat)) (i : Nat)
    (h : i < (sync_remote_repositories_organizations orgs).length) :
    (sync_remote_repositories_organizations orgs).length = orgs.flatten.length ∧
    (((sync_remote_repositories_organizations orgs)[i]?).map Prod.snd =
      some (5 * i)) := by
  have he : sync_remote_repositories_organizations orgs =
      (distributeMembers 0 orgs.flatten).1 := distributeOrgs_eq orgs 0
  have hlen : (sync_remote_repositories_organizations orgs).length =
      orgs.flatten.length := by
    rw [he, distributeMembers_length]
  refine ⟨hlen, ?_⟩
  rw [he, distributeMembers_delay]
  rw [hlen] at h
  rw [if_pos h]
  congr 1
  omega

theorem C5_distribute_resync_stagger_witness :
    (sync_remote_repositories_organizations [[1, 2], [3]]).length =
      ([[1, 2], [3]] : List (List Nat)).flatten.length ∧
    (((sync_remote_repositories_organizations [[1, 2], [3]])[2]?).map Prod.snd =
      some (5 * 2)) :=
  C5_distribute_resync_stagger [[1, 2], [3]] 2 (by decide)

/-- C6 counterexample: the claim says a user who is a member of two
resolved organizations still has exactly one job submitted.  The code
keeps no cross-organization record of users already submitted: user 7,
a member of both organizations below (each member list duplicate-free),
gets two jobs. -/
theorem C6_duplicate_member_counterexample :
    sync_remote_repositories_organizations [[7], [7]] = [(7, 0), (7, 5)] ∧
    ([7] : List Nat).Nodup ∧
    ((sync_remote_repositories_organizations [[7], [7]]).filter
        (fun j => j.1 == 7)).length ≠ 1 := by
  refine ⟨by decide, by decide, by decide⟩

theorem distributeMembers_filter (l : List Nat) :
    ∀ n u, ((((distributeMembers n l).1).filter (fun j => j.1 == u)).length) =
      l.count u := by
  induction l with
  | nil => intro n u; simp [distributeMembers]
  | cons v rest ih =>
    intro n u
    by_cases hv : v == u <;>
      simp [distributeMembers, List.filter_cons, hv, ih, List.count_cons]

theorem distributeOrgs_filter (orgs : List (List Nat)) :
    ∀ n u, (((distributeOrgs n orgs).filter (fun j => j.1 == u)).length) =
      (orgs.map (fun members => members.count u)).sum := by
  induction orgs with
  | nil => intro n u; simp [distributeOrgs]
  | cons members rest ih =>
    intro n u
    simp [distributeOrgs, List.filter_append, distributeMembers_filter, ih]

/-- C6 amended: `distribute_resync` submits exactly one job per
(organization, member) occurrence: the number of jobs carrying user `u`
equals the sum over the resolved organizations of `u`'s multiplicity in
that organization's member list; with each member list duplicate-free
this is the number of resolved organizations `u` belongs to — not one
globally, as the claim stated. -/
theorem C6_distribute_resync_per_membership (orgs : List (List Nat)) (u : Nat) :
    (((sync_remote_repositories_organizations orgs).filter
        (fun j => j.1 == u)).length =
      (orgs.map (fun members => members.count u)).sum) ∧
    ((∀ members ∈ orgs, members.Nodup) →
      ((sync_remote_repositories_organizations orgs).filter
          (fun j => j.1 == u)).length =
        (orgs.filter (fun members => decide (u ∈ members))).length) := by
  refine ⟨distributeOrgs_filter orgs 0 u, fun hnd => ?_⟩
  rw [show sync_remote_repositories_organizations orgs = distributeOrgs 0 orgs
      from rfl, distributeOrgs_filter]
  induction orgs with
  | nil => simp
  | cons members rest ih =>
    have hm : members.Nodup := hnd members (by simp)
    have hrest : ∀ m ∈ rest, m.Nodup := fun m hmem => hnd m (by simp [hmem])
    simp only [List.map_cons, List.sum_cons, List.filter_cons]
    by_cases hu : u ∈ members
    · rw [List.count_eq_one_of_mem hm hu, if_pos (by simp [hu]), List.length_cons,
        ih hrest]
      omega
    · rw [List.count_eq_zero_of_not_mem hu, if_neg (by simp [hu]), ih hrest]
      omega

theorem C6_distribute_resync_per_membership_witness :
    ((sync_remote_repositories_organizations [[7], [7, 9]]).filter
        (fun j => j.1 == 7)).length =
      (([[7], [7, 9]] : List (List Nat)).filter
        (fun members => decide (7 ∈ members))).length :=
  (C6_distribute_resync_per_membership [[7], [7, 9]] 7).2 (by decide)

/-! ## Active-user weekly batch: `sync_active_users_remote_repositories` -/

/-- ISO weekday (Monday=1 .. Sunday=7) of a UTC timestamp in seconds:
models both `ExtractIsoWeekDay("last_login")` and
`timezone.now().isoweekday()`.  The Unix epoch 1970-01-01 was a Thursday
(ISO 4), so day 0 maps to 4. -/
def isoWeekday (t : Int) : Int :=
  (t.ediv 86400 + 3).emod 7 + 1

/-- A user row as the weekly batch sees it: primary key, last-login
timestamp in seconds UTC (rows with NULL `last_login` are excluded by
the `last_login__gt` filter and are not modelled), and the number of
linked social-account rows. -/
structure User where
  pk : Nat
  last_login : Int
  socialaccounts : Nat
deriving DecidableEq

/-- The queryset `User.objects.annotate(weekday=ExtractIsoWeekDay(
"last_login")).filter(last_login__gt=three_months_ago,
socialaccount__isnull=False, weekday=today_weekday)`.

Filtering on the multi-valued reverse relation `socialaccount` makes the
SQL an inner join against the social-account table, so the queryset
yields one row per (user, socialaccount) pair; there is no `.distinct()`
call, hence a matching user appears once per linked account (and a user
with zero accounts is dropped by the join).  The two `timezone.now()`
calls of the task body are microseconds apart; the model uses a single
`now`. -/
def activeUsersQuery (now : Int) (users : List User) : List User :=
  users.flatMap fun u =>
    if now - 90 * 86400 < u.last_login ∧ isoWeekday u.last_login = isoWeekday now
    then List.replicate u.socialaccounts u else []

/-- The `for i, user in enumerate(users)` loop: each row's sync is run in
the same process inside `try: ... except Exception: log.exception(...)`,
so a raising sync (any exception, including the aggregate
`SyncServiceError` the per-user sync raises) is swallowed and the loop
continues.  Returns the rows attempted, in order, and the error messages
that were caught and logged. -/
def weeklyLoop (syncf : User → Except String Unit) :
    List User → List User × List String
  | [] => ([], [])
  | u :: rest =>
    match syncf u with
    | Except.ok _ =>
      (u :: (weeklyLoop syncf rest).1, (weeklyLoop syncf rest).2)
    | Except.error e =>
      (u :: (weeklyLoop syncf rest).1, e :: (weeklyLoop syncf rest).2)

/-- Model of `sync_active_users_remote_repositories()`: select the active
rows, then run each row's in-process sync under the per-row exception
guard.  `syncf` is the outcome of `sync_remote_repositories(user.pk)` for
each row (`Except.error` = the call raised).  The model is a total
function: the task itself propagates no error to its caller. -/
def sync_active_users_remote_repositories (now : Int) (users : List User)
    (syncf : User → Except String Unit) : List User × List String :=
  weeklyLoop syncf (activeUsersQuery now users)

/-- C7: the weekly batch selects exactly the users with `last_login`
inside the 90-day window, at least one linked provider account, and
`last_login` ISO weekday equal to today's; a user inactive 120 days is
never selected, and any selected user's login weekday matches today's
(so a Wednesday last login is selected only on a Wednesday). -/
theorem C7_sync_active_users_selection (now : Int) (users : List User)
    (u : User) :
    (u ∈ activeUsersQuery now users ↔
      (u ∈ users ∧ now - 90 * 86400 < u.last_login ∧ 0 < u.socialaccounts ∧
        isoWeekday u.last_login = isoWeekday now)) ∧
    (u.last_login ≤ now - 120 * 86400 → u ∉ activeUsersQuery now users) ∧
    (u ∈ activeUsersQuery now users → isoWeekday u.last_login = isoWeekday now) := by
  have hmem : u ∈ activeUsersQuery now users ↔
      (u ∈ users ∧ now - 90 * 86400 < u.last_login ∧ 0 < u.socialaccounts ∧
        isoWeekday u.last_login = isoWeekday now) := by
    constructor
    · intro h
      rcases List.mem_flatMap.mp h with ⟨v, hv, hu⟩
      by_cases hc : now - 90 * 86400 < v.last_login ∧
          isoWeekday v.last_login = isoWeekday now
      · rw [if_pos hc] at hu
        rcases List.mem_replicate.mp hu with ⟨hne, rfl⟩
        exact ⟨hv, hc.1, Nat.pos_of_ne_zero hne, hc.2⟩
      · rw [if_neg hc] at hu
        simp at hu
    · rintro ⟨hu, h1, h2, h3⟩
      refine List.mem_flatMap.mpr ⟨u, hu, ?_⟩
      rw [if_pos ⟨h1, h3⟩]
      exact List.mem_replicate.mpr ⟨by omega, rfl⟩
  refine ⟨hmem, fun hstale h => ?_, fun h => ((hmem.mp h).2.2.2)⟩
  have h1 := (hmem.mp h).2.1
  omega

/-- A user whose last login is 120 days old, for the C7 witness. -/
def C7stale : User := ⟨3, -(120 * 86400), 1⟩

theorem C7_sync_active_users_selection_witness :
    C7stale ∉ activeUsersQuery 0 [C7stale] :=
  (C7_sync_active_users_selection 0 [C7stale] C7stale).2.1 (by decide)

/-- C8: whatever each row's in-process sync does — succeed or raise,
including raising the aggregate provider-failure error — every selected
row is still attempted, in order, and the batch itself returns normally
(the model is a total function whose attempted-rows component never
depends on the outcomes). -/
theorem C8_sync_active_users_isolation (now : Int) (users : List User)
    (syncf : User → Except String Unit) :
    (sync_active_users_remote_repositories now users syncf).1 =
      activeUsersQuery now users := by
  show (weeklyLoop syncf (activeUsersQuery now users)).1 = activeUsersQuery now users
  generalize activeUsersQuery now users = l
  induction l with
  | nil => rfl
  | cons u rest ih =>
    cases hsync : syncf u <;> simp [weeklyLoop, hsync, ih]

/-- A user with two linked social accounts who logged in 7 days ago (same
ISO weekday as `now = 0`, within the 90-day window). -/
def C10user : User := ⟨1, -(7 * 86400), 2⟩

/-- C10: the claim (and the task's own docstring, which promises the
re-sync happens once a week per user) requires each matching user to be
synced at most once per run.  The queryset joins the multi-valued
`socialaccount` relation without `.distinct()`, so a matching user with
two linked accounts appears twice and the loop syncs them twice in the
same run. -/
theorem C10_duplicate_active_user_rows :
    activeUsersQuery 0 [C10user] = [C10user, C10user] ∧
    (sync_active_users_remote_repositories 0 [C10user]
        (fun _ => Except.ok ())).1 = [C10user, C10user] := by
  refine ⟨by decide, by decide⟩
